import Mathlib

/-!
Shallow embedding of the core of the `http3` asynchronous HTTP client:
the HTTP/1.1 and HTTP/2 connection state machines (`http3/dispatch/http11.py`,
`http3/dispatch/http2.py`), the TLS configuration (`http3/config.py`) and the
auth mutators (`http3/auth.py`).  Pure functions of the source become Lean
functions; stateful methods become explicit state-passing functions; Python
exceptions become `Except String`.
-/

namespace Http3

/-! ## Python helpers -/

/-- Python `range(start, stop, step)` for non-negative arguments.
`range` raises `ValueError` when `step == 0`, before producing anything. -/
def pyRange (start stop step : Nat) : Except String (List Nat) :=
  if step = 0 then
    .error "ValueError: range() arg 3 must not be zero"
  else
    .ok ((List.range ((stop - start + step - 1) / step)).map (fun i => start + i * step))

/-- Python slice `xs[start:stop]` for non-negative indices (clamping at the
ends, as Python slices do). -/
def pySlice (xs : List Nat) (start stop : Nat) : List Nat :=
  (xs.drop start).take (stop - start)

/-! ## HTTP/2 `send_data`  (`http3/dispatch/http2.py`, lines 95-104)

```python
async def send_data(self, stream_id, data, timeout=None):
    flow_control = self.h2_state.local_flow_control_window(stream_id)
    chunk_size = min(len(data), flow_control)
    for idx in range(0, len(data), chunk_size):
        chunk = data[idx:idx+chunk_size]
        self.h2_state.send_data(stream_id, chunk)
        data_to_send = self.h2_state.data_to_send()
        await self.writer.write(data_to_send, timeout)
```

The codec (`h2_state`) is third-party; the repository's own logic is the
chunking above.  `flow_control` is the value `local_flow_control_window`
returns at entry; the body is a byte string `data`.  The function returns the
list of chunks handed to `h2_state.send_data`, in order, or the exception the
loop raises. -/

def send_data (data : List Nat) (flow_control : Nat) : Except String (List (List Nat)) :=
  let chunk_size := min data.length flow_control
  match pyRange 0 data.length chunk_size with
  | .error e => .error e
  | .ok idxs => .ok (idxs.map (fun idx => pySlice data idx (idx + chunk_size)))

/-! ## HTTP/1.1 events and the 1xx handling in `send`
(`http3/dispatch/http11.py`, lines 64-69)

```python
# Start getting the response.
event = await self._receive_event(timeout)
if isinstance(event, h11.InformationalResponse):
    event = await self._receive_event(timeout)
assert isinstance(event, h11.Response)
```

`_receive_event` blocks until the h11 codec yields the next event; we model
the inbound side as the list of events the codec will produce, in order.
Running out of events models a read that never completes. -/

inductive H11Event where
  | informationalResponse (status : Nat) (headers : List (String × String))
  | response (status : Nat) (headers : List (String × String))
  | data (bytes : List Nat)
  | endOfMessage
  | connectionClosed
deriving DecidableEq, Repr

/-- Model of `_receive_event`: the next codec event, or an error when the stream of
inbound events is exhausted. -/
def receive_event (evs : List H11Event) : Except String (H11Event × List H11Event) :=
  match evs with
  | [] => .error "blocked: no further inbound event"
  | e :: rest => .ok (e, rest)

/-- Lines 64-69 of `http11.py`: read one event; if it is an
`InformationalResponse`, read one more; then assert the result is a
`Response` and return its status code and headers together with the
remaining inbound events. -/
def read_response (evs : List H11Event) :
    Except String (Nat × List (String × String) × List H11Event) :=
  match receive_event evs with
  | .error e => .error e
  | .ok (ev, rest) =>
    let step : Except String (H11Event × List H11Event) :=
      match ev with
      | .informationalResponse _ _ => receive_event rest
      | _ => .ok (ev, rest)
    match step with
    | .error e => .error e
    | .ok (ev2, rest2) =>
      match ev2 with
      | .response status headers => .ok (status, headers, rest2)
      | _ => .error "AssertionError: isinstance(event, h11.Response)"

/-! ## HTTP/1.1 connection reuse and release
(`http3/dispatch/http11.py`, lines 111-121)

```python
async def response_closed(self) -> None:
    if (
        self.h11_state.our_state is h11.DONE
        and self.h11_state.their_state is h11.DONE
    ):
        self.h11_state.start_next_cycle()
    else:
        await self.close()

    if self.on_release is not None:
        await self.on_release()
```

The h11 codec states are modelled as an enumeration; `start_next_cycle`
resets both sides to IDLE (h11's behaviour when both sides are DONE), and
`close` sends `ConnectionClosed` — our side becomes CLOSED — and closes the
transport.  `releaseCount` counts invocations of the pool's release
callback; `hasOnRelease` records whether `on_release` is not `None`. -/

inductive H11State where
  | IDLE | SEND_BODY | SEND_RESPONSE | DONE | MUST_CLOSE | CLOSED | ERROR
deriving DecidableEq, Repr

structure H11Conn where
  ourState : H11State
  theirState : H11State
  transportClosed : Bool
  hasOnRelease : Bool
  releaseCount : Nat
deriving DecidableEq, Repr

/-- Method `HTTP11Connection.close`: send `h11.ConnectionClosed` (our side becomes
CLOSED) and close the writer. -/
def h11close (c : H11Conn) : H11Conn :=
  { c with ourState := .CLOSED, transportClosed := true }

/-- Method `HTTP11Connection.response_closed`. -/
def response_closed (c : H11Conn) : H11Conn :=
  let c1 :=
    if c.ourState = .DONE ∧ c.theirState = .DONE then
      { c with ourState := .IDLE, theirState := .IDLE }
    else
      h11close c
  if c1.hasOnRelease then { c1 with releaseCount := c1.releaseCount + 1 } else c1

/-- Property `HTTP11Connection.is_closed`: our side is CLOSED or ERROR. -/
def h11_is_closed (c : H11Conn) : Bool :=
  c.ourState = .CLOSED ∨ c.ourState = .ERROR

/-! ## HTTP/2 event map  (`http3/dispatch/http2.py`, lines 23, 36, 122-141)

The connection holds `self.events : Dict[int, List[h2.events.Event]]`.
`send` registers `self.events[stream_id] = []` after sending HEADERS;
`receive_event` routes every inbound codec event whose `stream_id` attribute
is truthy into `self.events[event.stream_id]` and pops from the caller's
queue; `response_closed` deletes the stream's entry and, when the map became
empty and `on_release` is set, awaits the release callback.

An h2 codec event is modelled by its kind and its `stream_id` attribute,
with `0` standing for a missing or zero attribute (both are falsy for
`getattr(event, "stream_id", 0)`).  The dict is an association list in
insertion order. -/

inductive H2EventKind where
  | responseReceived | dataReceived | streamEnded | streamReset
  | windowUpdated | connectionScope
deriving DecidableEq, Repr

structure H2Event where
  kind : H2EventKind
  stream_id : Nat
deriving DecidableEq, Repr

abbrev H2EventMap := List (Nat × List H2Event)

/-- Python `self.events[stream_id] = []` — dict assignment: replace the
value when the key exists, else append the new key at the end. -/
def mapSetEmpty (sid : Nat) : H2EventMap → H2EventMap
  | [] => [(sid, [])]
  | (k, q) :: rest => if k = sid then (k, []) :: rest else (k, q) :: mapSetEmpty sid rest

/-- Python `self.events[k].append(e)` — raises `KeyError` when `k` is not a
key of the dict. -/
def mapAppend (k : Nat) (e : H2Event) : H2EventMap → Except String H2EventMap
  | [] => .error "KeyError"
  | (k2, q) :: rest =>
    if k2 = k then .ok ((k2, q ++ [e]) :: rest)
    else match mapAppend k e rest with
      | .error err => .error err
      | .ok rest2 => .ok ((k2, q) :: rest2)

/-- Python `del self.events[sid]` — raises `KeyError` when absent. -/
def mapDelete (sid : Nat) : H2EventMap → Except String H2EventMap
  | [] => .error "KeyError"
  | (k, q) :: rest =>
    if k = sid then .ok rest
    else match mapDelete sid rest with
      | .error err => .error err
      | .ok rest2 => .ok ((k, q) :: rest2)

/-- Replace the queue stored under `sid` — `KeyError` when absent. -/
def mapReplace (sid : Nat) (q : List H2Event) : H2EventMap → Except String H2EventMap
  | [] => .error "KeyError"
  | (k, q2) :: rest =>
    if k = sid then .ok ((k, q) :: rest)
    else match mapReplace sid q rest with
      | .error err => .error err
      | .ok rest2 => .ok ((k, q2) :: rest2)

/-- Python `self.events[sid].pop(0)` as used by `receive_event`: the loop
spins until the queue is non-empty, so popping is modelled only on a
non-empty queue (an empty queue means the read loop keeps reading). -/
def mapPop (sid : Nat) (m : H2EventMap) : Except String (H2Event × H2EventMap) :=
  match m.lookup sid with
  | none => .error "KeyError"
  | some [] => .error "blocked: queue empty, read loop keeps reading"
  | some (e :: q) =>
    match mapReplace sid q m with
    | .ok m2 => .ok (e, m2)
    | .error err => .error err

structure H2Conn where
  events : H2EventMap
  hasOnRelease : Bool
  releaseCount : Nat
deriving DecidableEq, Repr

/-- The state of a fresh `HTTP2Connection` (constructor, line 23):
`self.events = {}`. -/
def h2init (hasOnRelease : Bool) : H2Conn :=
  { events := [], hasOnRelease := hasOnRelease, releaseCount := 0 }

/-- Line 36 of `http2.py`: `self.events[stream_id] = []`. -/
def h2_open_stream (sid : Nat) (c : H2Conn) : H2Conn :=
  { c with events := mapSetEmpty sid c.events }

/-- Lines 128-130 of `http2.py`: route one codec event —
`if getattr(event, "stream_id", 0): self.events[event.stream_id].append(event)`.
Events with a falsy `stream_id` are skipped. -/
def h2_route_event (e : H2Event) (c : H2Conn) : Except String H2Conn :=
  if e.stream_id ≠ 0 then
    match mapAppend e.stream_id e c.events with
    | .error err => .error err
    | .ok m => .ok { c with events := m }
  else
    .ok c

/-- One iteration of `receive_event`'s read loop: route every event of the
batch the codec produced from the bytes read. -/
def h2_receive_batch (evs : List H2Event) (c : H2Conn) : Except String H2Conn :=
  match evs with
  | [] => .ok c
  | e :: rest =>
    match h2_route_event e c with
    | .error err => .error err
    | .ok c2 => h2_receive_batch rest c2

/-- Line 135 of `http2.py`: `return self.events[stream_id].pop(0)`. -/
def h2_pop_event (sid : Nat) (c : H2Conn) : Except String (H2Event × H2Conn) :=
  match mapPop sid c.events with
  | .error err => .error err
  | .ok (e, m) => .ok (e, { c with events := m })

/-- Lines 137-141 of `http2.py`:

```python
async def response_closed(self, stream_id: int) -> None:
    del self.events[stream_id]

    if not self.events and self.on_release is not None:
        await self.on_release()
``` -/
def h2_response_closed (sid : Nat) (c : H2Conn) : Except String H2Conn :=
  match mapDelete sid c.events with
  | .error err => .error err
  | .ok m =>
    let c2 := { c with events := m }
    if m.isEmpty ∧ c.hasOnRelease then
      .ok { c2 with releaseCount := c2.releaseCount + 1 }
    else
      .ok c2

/-- The operations the connection performs on its event map over its life. -/
inductive H2Op where
  | openStream (sid : Nat)
  | receiveBatch (evs : List H2Event)
  | popEvent (sid : Nat)
  | closeResponse (sid : Nat)
deriving DecidableEq, Repr

def h2_step (op : H2Op) (c : H2Conn) : Except String H2Conn :=
  match op with
  | .openStream sid => .ok (h2_open_stream sid c)
  | .receiveBatch evs => h2_receive_batch evs c
  | .popEvent sid =>
    match h2_pop_event sid c with
    | .error err => .error err
    | .ok (_, c2) => .ok c2
  | .closeResponse sid => h2_response_closed sid c

def h2_run (ops : List H2Op) (c : H2Conn) : Except String H2Conn :=
  match ops with
  | [] => .ok c
  | op :: rest =>
    match h2_step op c with
    | .error err => .error err
    | .ok c2 => h2_run rest c2

/-- The event-map invariant of the claim: every queue holds only events
carrying the queue's own stream id. -/
def goodMap (m : H2EventMap) : Prop :=
  ∀ p ∈ m, ∀ e ∈ p.2, e.stream_id = p.1

instance (m : H2EventMap) : Decidable (goodMap m) := by
  unfold goodMap; infer_instance

/-! ## Basic auth  (`http3/auth.py`, lines 23-38)

```python
def __call__(self, request):
    request.headers["Authorization"] = self.build_auth_header()
    return request

def build_auth_header(self) -> str:
    username, password = self.username, self.password
    if isinstance(username, str):
        username = username.encode("latin1")
    if isinstance(password, str):
        password = password.encode("latin1")
    userpass = b":".join((username, password))
    token = b64encode(userpass).decode().strip()
    return f"Basic \x7btoken\x7d"
```

Bytes are `List Nat` (each < 256).  Base64 is the standard RFC 4648
alphabet with `=` padding, as `base64.b64encode` produces. -/

/-- A credential is text or bytes (`typing.Union[str, bytes]`). -/
inductive StrOrBytes where
  | str (s : String)
  | bytes (b : List Nat)
deriving DecidableEq, Repr

/-- Python `str.encode("latin1")`: code points below 256 map to single
bytes; any higher code point raises `UnicodeEncodeError`. -/
def latin1Encode (s : String) : Except String (List Nat) :=
  if s.toList.all (fun c => c.toNat < 256) then
    .ok (s.toList.map Char.toNat)
  else
    .error "UnicodeEncodeError"

/-- Coerce a credential to bytes, as the two `isinstance` branches do. -/
def toBytes (v : StrOrBytes) : Except String (List Nat) :=
  match v with
  | .str s => latin1Encode s
  | .bytes b => .ok b

def base64Alphabet : List Char :=
  "ABCDEFGHIJKLMNOPQRSTUVWXYZabcdefghijklmnopqrstuvwxyz0123456789+/".toList

def b64Char (n : Nat) : Char :=
  base64Alphabet.getD (n % 64) 'A'

/-- Python `base64.b64encode` on a byte string, as a list of characters. -/
def b64encodeChars : List Nat → List Char
  | [] => []
  | [a] => [b64Char (a / 4), b64Char (a % 4 * 16), '=', '=']
  | [a, b] => [b64Char (a / 4), b64Char (a % 4 * 16 + b / 16), b64Char (b % 16 * 4), '=']
  | a :: b :: c :: rest =>
    b64Char (a / 4) :: b64Char (a % 4 * 16 + b / 16) ::
      b64Char (b % 16 * 4 + c / 64) :: b64Char (c % 64) :: b64encodeChars rest

def b64encode (bs : List Nat) : String :=
  String.mk (b64encodeChars bs)

/-- The whitespace characters `str.strip()` removes (the ASCII ones; the
base64 alphabet is pure ASCII so the unicode ones never arise here). -/
def isPySpace (c : Char) : Bool :=
  c = ' ' ∨ c = '\t' ∨ c = '\n' ∨ c = '\r' ∨ c = '\x0b' ∨ c = '\x0c'

/-- Python `str.strip()` with no argument. -/
def pyStrip (s : String) : String :=
  String.mk (((s.toList.dropWhile isPySpace).reverse.dropWhile isPySpace).reverse)

/-- Method `HTTPBasicAuth.build_auth_header`. -/
def build_auth_header (username password : StrOrBytes) : Except String String :=
  match toBytes username with
  | .error e => .error e
  | .ok u =>
    match toBytes password with
    | .error e => .error e
    | .ok p =>
      let userpass := u ++ [58] ++ p
      let token := pyStrip (b64encode userpass)
      .ok ("Basic " ++ token)

/-- ASCII lowercase of one character (HTTP header names are ASCII tokens). -/
def lowerChar (c : Char) : Char :=
  if 'A' ≤ c ∧ c ≤ 'Z' then Char.ofNat (c.toNat + 32) else c

/-- HTTP header names compare case-insensitively. -/
def headerNameEq (a b : String) : Bool :=
  a.toList.map lowerChar = b.toList.map lowerChar

/-- Modelled from the spec: the header container (`models.py`, not under
`src/`) holds (name, value) pairs in insertion order, and assignment by name
replaces any existing entries for that case-insensitively compared name with
the single new pair. -/
def setHeader (hs : List (String × String)) (name value : String) : List (String × String) :=
  (hs.filter (fun p => ! headerNameEq p.1 name)) ++ [(name, value)]

/-- Method `HTTPBasicAuth.__call__`: stamp the Authorization header onto the
request's header list. -/
def applyBasicAuth (username password : StrOrBytes) (hs : List (String × String)) :
    Except String (List (String × String)) :=
  match build_auth_header username password with
  | .error e => .error e
  | .ok v => .ok (setHeader hs "Authorization" v)

/-! ## TLS configuration  (`http3/config.py`, lines 33-126)

`cert` is absent, a single PEM path, or a (cert, key) pair; `verify` is a
boolean or a CA-bundle path.  Equality is structural (`__eq__` compares the
two fields). -/

inductive CertT where
  | pem (path : String)
  | pair (certPath keyPath : String)
deriving DecidableEq, Repr

inductive VerifyT where
  | boolean (b : Bool)
  | path (p : String)
deriving DecidableEq, Repr

structure SSLConfig where
  cert : Option CertT
  verify : VerifyT
deriving DecidableEq, Repr

/-- Whether `with_overrides` returned the receiver itself (`return self`) or
constructed a fresh `SSLConfig`. -/
inductive OverrideResult where
  | sameInstance
  | freshConfig (cfg : SSLConfig)
deriving DecidableEq, Repr

/-- Method `SSLConfig.with_overrides` (`config.py`, lines 53-60):

```python
def with_overrides(self, cert=None, verify=None):
    cert = self.cert if cert is None else cert
    verify = self.verify if verify is None else verify
    if (cert == self.cert) and (verify == self.verify):
        return self
    return SSLConfig(cert=cert, verify=verify)
```

An argument of `None` means "unspecified"; the `verify` field itself is
never `None` (its constructor default is `True`). -/
def with_overrides (s : SSLConfig) (cert : Option CertT) (verify : Option VerifyT) :
    OverrideResult :=
  let cert2 := match cert with | none => s.cert | some c => some c
  let verify2 := match verify with | none => s.verify | some v => v
  if cert2 = s.cert ∧ verify2 = s.verify then .sameInstance
  else .freshConfig { cert := cert2, verify := verify2 }

/-- The configuration a fresh result of `with_overrides` would carry, same
instance or not: the merged field values. -/
def mergedConfig (s : SSLConfig) (cert : Option CertT) (verify : Option VerifyT) : SSLConfig :=
  { cert := match cert with | none => s.cert | some c => some c,
    verify := match verify with | none => s.verify | some v => v }

/-! ## `load_ssl_context_verify`  (`http3/config.py`, lines 86-126)

The filesystem is a map from paths to what `os.path` sees there: a regular
file, a directory, some other node (FIFO, socket, device — `os.path.exists`
is true but neither `isfile` nor `isdir` holds), or nothing.  The built
`ssl.SSLContext` is abstracted to the repository-visible configuration
decisions: which CA location was loaded and how, and which client chain was
loaded.  TLS-backend internals (ciphers, ALPN/NPN, options) are fixed
constants in the source and carry no claim content. -/

inductive PathKind where
  | regularFile | directory | otherNode | missing
deriving DecidableEq, Repr

/-- Python `os.path.exists`. -/
def pathExists (fs : String → PathKind) (p : String) : Bool :=
  fs p ≠ .missing

/-- Python `os.path.isfile`. -/
def isfile (fs : String → PathKind) (p : String) : Bool :=
  fs p = .regularFile

/-- Python `os.path.isdir`. -/
def isdir (fs : String → PathKind) (p : String) : Bool :=
  fs p = .directory

/-- Constant `DEFAULT_CA_BUNDLE_PATH = certifi.where()` — the vendored bundle's path,
an opaque constant here. -/
def DEFAULT_CA_BUNDLE_PATH : String := "certifi/cacert.pem"

/-- The CA location `context.load_verify_locations` was given, if any. -/
inductive CALocation where
  | caFile (p : String)
  | caPath (p : String)
deriving DecidableEq, Repr

structure VerifyContext where
  caLocation : Option CALocation
  certChain : Option CertT
deriving DecidableEq, Repr

/-- Method `SSLConfig.load_ssl_context_verify`:

```python
if isinstance(self.verify, bool):
    ca_bundle_path = DEFAULT_CA_BUNDLE_PATH
elif os.path.exists(self.verify):
    ca_bundle_path = self.verify
else:
    raise IOError(...)
...
if os.path.isfile(ca_bundle_path):
    context.load_verify_locations(cafile=ca_bundle_path)
elif os.path.isdir(ca_bundle_path):
    context.load_verify_locations(capath=ca_bundle_path)
if self.cert is not None:
    ... load_cert_chain ...
``` -/
def load_ssl_context_verify (fs : String → PathKind) (cfg : SSLConfig) :
    Except String VerifyContext :=
  let caBundle : Except String String :=
    match cfg.verify with
    | .boolean _ => .ok DEFAULT_CA_BUNDLE_PATH
    | .path p =>
      if pathExists fs p then .ok p
      else .error ("IOError: could not find a suitable TLS CA certificate bundle, invalid path: " ++ p)
  match caBundle with
  | .error e => .error e
  | .ok ca =>
    .ok { caLocation :=
            if isfile fs ca then some (.caFile ca)
            else if isdir fs ca then some (.caPath ca)
            else none,
          certChain := cfg.cert }

/-! ## HTTP/1.1 Host header  (`http3/dispatch/http11.py`, lines 46-53)

```python
method = request.method.encode("ascii")
target = request.url.full_path.encode("ascii")
headers = request.headers.raw
if "Host" not in request.headers:
    host = request.url.authority.encode("ascii")
    headers = [(b"host", host)] + headers
event = h11.Request(method=method, target=target, headers=headers)
```

Header names and values are ASCII strings standing for their byte strings. -/

/-- Modelled from the spec: `"Host" in request.headers` — membership in the
header container (`models.py`, not under `src/`) tests the name
case-insensitively, the usual HTTP header semantics the spec's "caller
omitted Host" refers to. -/
def containsHost (hs : List (String × String)) : Bool :=
  hs.any (fun p => headerNameEq p.1 "Host")

/-- The header list handed to the h11 codec's `Request` event. -/
def h11_request_headers (authority : String) (raw : List (String × String)) :
    List (String × String) :=
  if ¬ containsHost raw then ("host", authority) :: raw else raw

/-! ## HTTP/2 response parsing  (`http3/dispatch/http2.py`, lines 51-57)

```python
status_code = 200
headers = []
for k, v in event.headers:
    if k == b":status":
        status_code = int(v.decode("ascii", errors="ignore"))
    elif not k.startswith(b":"):
        headers.append((k, v))
```

The HPACK-decoded header block is a list of (name, value) byte strings. -/

/-- Python `bytes.decode("ascii", errors="ignore")`: bytes ≥ 128 are dropped, the
rest map to their ASCII characters. -/
def asciiIgnoreDecode (bs : List Nat) : String :=
  String.mk ((bs.filter (fun b => b < 128)).map Char.ofNat)

def pyIsDigit (c : Char) : Bool :=
  '0' ≤ c ∧ c ≤ '9'

def digitsToNat (ds : List Char) : Nat :=
  ds.foldl (fun acc c => acc * 10 + (c.toNat - 48)) 0

/-- Python `int(s)` for base 10: optional surrounding whitespace, an
optional sign, then decimal digits; anything else raises `ValueError`.
(Underscore digit separators, legal since Python 3.6, are not modelled —
no claim exercises them.) -/
def pyInt (s : String) : Except String Int :=
  let t := (pyStrip s).toList
  let signed : Int × List Char :=
    match t with
    | '-' :: rest => (-1, rest)
    | '+' :: rest => (1, rest)
    | _ => (1, t)
  if signed.2 ≠ [] ∧ signed.2.all pyIsDigit then
    .ok (signed.1 * (digitsToNat signed.2 : Int))
  else
    .error "ValueError: invalid literal for int() with base 10"

/-- The bytes of `b":status"`. -/
def statusHeaderName : List Nat := [58, 115, 116, 97, 116, 117, 115]

/-- Python `k.startswith(b":")`. -/
def startsWithColon (k : List Nat) : Bool :=
  match k with
  | b :: _ => b = 58
  | [] => false

/-- The `for k, v in event.headers` loop, carrying the running
`status_code` and the accumulated header list. -/
def parse_h2_response_loop (hdrs : List (List Nat × List Nat)) (status : Int)
    (acc : List (List Nat × List Nat)) : Except String (Int × List (List Nat × List Nat)) :=
  match hdrs with
  | [] => .ok (status, acc)
  | (k, v) :: rest =>
    if k = statusHeaderName then
      match pyInt (asciiIgnoreDecode v) with
      | .error e => .error e
      | .ok n => parse_h2_response_loop rest n acc
    else if startsWithColon k then
      parse_h2_response_loop rest status acc
    else
      parse_h2_response_loop rest status (acc ++ [(k, v)])

/-- Lines 51-57 of `http2.py`: the status code (defaulting to 200) and the
non-pseudo headers of a `ResponseReceived` event's header block. -/
def parse_h2_response (hdrs : List (List Nat × List Nat)) :
    Except String (Int × List (List Nat × List Nat)) :=
  parse_h2_response_loop hdrs 200 []

/-! ## Helper lemmas -/

theorem response_closed_hasOnRelease (c : H11Conn) :
    (response_closed c).hasOnRelease = c.hasOnRelease := by
  unfold response_closed h11close
  split <;> (cases hb : c.hasOnRelease <;> simp [hb])

theorem response_closed_releaseCount (c : H11Conn) (h : c.hasOnRelease = true) :
    (response_closed c).releaseCount = c.releaseCount + 1 := by
  unfold response_closed h11close
  split <;> simp [h]

theorem response_closed_iterate (n : Nat) (c : H11Conn) (h : c.hasOnRelease = true) :
    (response_closed^[n] c).releaseCount = c.releaseCount + n := by
  induction n generalizing c with
  | zero => simp
  | succ k ih =>
    rw [Function.iterate_succ_apply]
    rw [ih (response_closed c) ((response_closed_hasOnRelease c).trans h)]
    rw [response_closed_releaseCount c h]
    omega

/-- The keys of an event map are pairwise distinct (Python dict keys). -/
def nodupKeys (m : H2EventMap) : Prop :=
  (m.map Prod.fst).Nodup

theorem mem_mapSetEmpty (sid : Nat) (m : H2EventMap) (p : Nat × List H2Event)
    (hp : p ∈ mapSetEmpty sid m) : p = (sid, []) ∨ p ∈ m := by
  induction m with
  | nil => simpa [mapSetEmpty] using hp
  | cons hd tl ih =>
    obtain ⟨k, q⟩ := hd
    unfold mapSetEmpty at hp
    by_cases hk : k = sid
    · rw [if_pos hk] at hp
      rcases List.mem_cons.mp hp with h | h
      · left; rw [h, hk]
      · right; exact List.mem_cons_of_mem _ h
    · rw [if_neg hk] at hp
      rcases List.mem_cons.mp hp with h | h
      · right; simp [h]
      · rcases ih h with h2 | h2
        · left; exact h2
        · right; simp [h2]

theorem goodMap_mapSetEmpty (sid : Nat) (m : H2EventMap) (h : goodMap m) :
    goodMap (mapSetEmpty sid m) := by
  intro p hp e he
  rcases mem_mapSetEmpty sid m p hp with h2 | h2
  · subst h2; simp at he
  · exact h p h2 e he

theorem keys_mapSetEmpty (sid : Nat) (m : H2EventMap) :
    (mapSetEmpty sid m).map Prod.fst =
      if sid ∈ m.map Prod.fst then m.map Prod.fst else m.map Prod.fst ++ [sid] := by
  induction m with
  | nil => simp [mapSetEmpty]
  | cons hd tl ih =>
    obtain ⟨k, q⟩ := hd
    unfold mapSetEmpty
    by_cases hk : k = sid
    · rw [if_pos hk]; subst hk; simp
    · rw [if_neg hk]
      simp only [List.map_cons]
      rw [ih]
      by_cases hmem : sid ∈ tl.map Prod.fst
      · rw [if_pos hmem, if_pos (by simp [hmem])]
      · rw [if_neg hmem, if_neg (by simp [hmem]; exact fun h => hk h.symm)]
        simp

theorem nodup_mapSetEmpty (sid : Nat) (m : H2EventMap) (h : nodupKeys m) :
    nodupKeys (mapSetEmpty sid m) := by
  unfold nodupKeys at h ⊢
  rw [keys_mapSetEmpty]
  split
  · exact h
  · next hnm =>
    refine List.nodup_append.mpr ⟨h, List.nodup_singleton sid, ?_⟩
    intro a ha hb
    simp only [List.mem_singleton] at hb
    subst hb
    exact hnm ha

theorem mapAppend_ok_keys (k : Nat) (e : H2Event) (m m2 : H2EventMap)
    (h : mapAppend k e m = .ok m2) : m2.map Prod.fst = m.map Prod.fst := by
  induction m generalizing m2 with
  | nil => simp [mapAppend] at h
  | cons hd tl ih =>
    obtain ⟨k2, q⟩ := hd
    unfold mapAppend at h
    by_cases hk : k2 = k
    · rw [if_pos hk] at h
      injection h with h2
      subst h2
      simp
    · rw [if_neg hk] at h
      rcases hr : mapAppend k e tl with err | tl2
      · rw [hr] at h; cases h
      · rw [hr] at h
        injection h with h2
        subst h2
        simp [ih tl2 hr]

theorem mapAppend_ok_goodMap (k : Nat) (e : H2Event) (m m2 : H2EventMap)
    (hg : goodMap m) (he : e.stream_id = k) (h : mapAppend k e m = .ok m2) :
    goodMap m2 := by
  induction m generalizing m2 with
  | nil => simp [mapAppend] at h
  | cons hd tl ih =>
    obtain ⟨k2, q⟩ := hd
    unfold mapAppend at h
    by_cases hk : k2 = k
    · rw [if_pos hk] at h
      injection h with h2
      subst h2
      intro p hp e2 he2
      rcases List.mem_cons.mp hp with h3 | h3
      · subst h3
        rcases List.mem_append.mp he2 with h4 | h4
        · exact hg (k2, q) (by simp) e2 h4
        · simp at h4
          rw [h4, he, hk]
      · exact hg p (by simp [h3]) e2 he2
    · rw [if_neg hk] at h
      rcases hr : mapAppend k e tl with err | tl2
      · rw [hr] at h; cases h
      · rw [hr] at h
        injection h with h2
        subst h2
        intro p hp e2 he2
        rcases List.mem_cons.mp hp with h3 | h3
        · subst h3
          exact hg (k2, q) (by simp) e2 he2
        · exact ih tl2 (fun p2 hp2 => hg p2 (by simp [hp2])) hr p h3 e2 he2

theorem mapReplace_ok_keys (sid : Nat) (q : List H2Event) (m m2 : H2EventMap)
    (h : mapReplace sid q m = .ok m2) : m2.map Prod.fst = m.map Prod.fst := by
  induction m generalizing m2 with
  | nil => simp [mapReplace] at h
  | cons hd tl ih =>
    obtain ⟨k2, q2⟩ := hd
    unfold mapReplace at h
    by_cases hk : k2 = sid
    · rw [if_pos hk] at h
      injection h with h2
      subst h2
      simp
    · rw [if_neg hk] at h
      rcases hr : mapReplace sid q tl with err | tl2
      · rw [hr] at h; cases h
      · rw [hr] at h
        injection h with h2
        subst h2
        simp [ih tl2 hr]

theorem mapReplace_ok_goodMap (sid : Nat) (q : List H2Event) (m m2 : H2EventMap)
    (hg : goodMap m) (hq : ∀ e ∈ q, e.stream_id = sid) (h : mapReplace sid q m = .ok m2) :
    goodMap m2 := by
  induction m generalizing m2 with
  | nil => simp [mapReplace] at h
  | cons hd tl ih =>
    obtain ⟨k2, q2⟩ := hd
    unfold mapReplace at h
    by_cases hk : k2 = sid
    · rw [if_pos hk] at h
      injection h with h2
      subst h2
      intro p hp e2 he2
      rcases List.mem_cons.mp hp with h3 | h3
      · subst h3
        rw [hq e2 he2, hk]
      · exact hg p (by simp [h3]) e2 he2
    · rw [if_neg hk] at h
      rcases hr : mapReplace sid q tl with err | tl2
      · rw [hr] at h; cases h
      · rw [hr] at h
        injection h with h2
        subst h2
        intro p hp e2 he2
        rcases List.mem_cons.mp hp with h3 | h3
        · subst h3
          exact hg (k2, q2) (by simp) e2 he2
        · exact ih tl2 (fun p2 hp2 => hg p2 (by simp [hp2])) hr p h3 e2 he2

theorem lookup_goodMap (m : H2EventMap) (hg : goodMap m) (sid : Nat) (l : List H2Event)
    (h : m.lookup sid = some l) : ∀ e ∈ l, e.stream_id = sid := by
  induction m with
  | nil => simp at h
  | cons hd tl ih =>
    obtain ⟨k, q⟩ := hd
    rw [List.lookup_cons] at h
    by_cases hk : sid = k
    · simp only [hk, beq_self_eq_true] at h
      injection h with h2
      subst h2
      intro e he
      rw [hg (k, q) (by simp) e he]
      exact hk.symm
    · simp only [beq_eq_false_iff_ne.mpr hk] at h
      exact ih (fun p hp => hg p (by simp [hp])) h

theorem mapDelete_ok_sublist (sid : Nat) (m m2 : H2EventMap)
    (h : mapDelete sid m = .ok m2) : List.Sublist m2 m := by
  induction m generalizing m2 with
  | nil => simp [mapDelete] at h
  | cons hd tl ih =>
    obtain ⟨k, q⟩ := hd
    unfold mapDelete at h
    by_cases hk : k = sid
    · rw [if_pos hk] at h
      injection h with h2
      subst h2
      exact List.sublist_cons_self _ _
    · rw [if_neg hk] at h
      rcases hr : mapDelete sid tl with err | tl2
      · rw [hr] at h; cases h
      · rw [hr] at h
        injection h with h2
        subst h2
        exact List.Sublist.cons₂ _ (ih tl2 hr)

theorem lookup_eq_none_of_not_mem (sid : Nat) (m : H2EventMap)
    (h : sid ∉ m.map Prod.fst) : m.lookup sid = none := by
  rw [List.lookup_eq_none_iff]
  intro p hp
  simp only [bne_iff_ne, ne_eq]
  intro hx
  exact h (hx ▸ List.mem_map_of_mem Prod.fst hp)

theorem mapDelete_ok_lookup_self (sid : Nat) (m m2 : H2EventMap) (hnd : nodupKeys m)
    (h : mapDelete sid m = .ok m2) : m2.lookup sid = none := by
  induction m generalizing m2 with
  | nil => simp [mapDelete] at h
  | cons hd tl ih =>
    obtain ⟨k, q⟩ := hd
    unfold mapDelete at h
    unfold nodupKeys at hnd
    simp only [List.map_cons, List.nodup_cons] at hnd
    by_cases hk : k = sid
    · rw [if_pos hk] at h
      injection h with h2
      subst h2
      exact lookup_eq_none_of_not_mem sid tl (hk ▸ hnd.1)
    · rw [if_neg hk] at h
      rcases hr : mapDelete sid tl with err | tl2
      · rw [hr] at h; cases h
      · rw [hr] at h
        injection h with h2
        subst h2
        rw [List.lookup_cons]
        simp only [beq_eq_false_iff_ne.mpr (fun hx : sid = k => hk hx.symm)]
        exact ih tl2 hnd.2 hr

theorem mapDelete_ok_lookup_ne (sid k0 : Nat) (m m2 : H2EventMap) (hne : k0 ≠ sid)
    (h : mapDelete sid m = .ok m2) : m2.lookup k0 = m.lookup k0 := by
  induction m generalizing m2 with
  | nil => simp [mapDelete] at h
  | cons hd tl ih =>
    obtain ⟨k, q⟩ := hd
    unfold mapDelete at h
    by_cases hk : k = sid
    · rw [if_pos hk] at h
      injection h with h2
      subst h2
      rw [List.lookup_cons]
      simp only [beq_eq_false_iff_ne.mpr (hk ▸ hne)]
    · rw [if_neg hk] at h
      rcases hr : mapDelete sid tl with err | tl2
      · rw [hr] at h; cases h
      · rw [hr] at h
        injection h with h2
        subst h2
        rw [List.lookup_cons, List.lookup_cons]
        by_cases hb : k0 = k
        · simp only [hb, beq_self_eq_true]
        · simp only [beq_eq_false_iff_ne.mpr hb]
          exact ih tl2 hr

theorem goodMap_sublist (m m2 : H2EventMap) (hs : List.Sublist m2 m) (h : goodMap m) :
    goodMap m2 :=
  fun p hp => h p (hs.subset hp)

theorem nodup_sublist (m m2 : H2EventMap) (hs : List.Sublist m2 m) (h : nodupKeys m) :
    nodupKeys m2 :=
  h.sublist (hs.map Prod.fst)

theorem h2_route_event_ok_keys (e : H2Event) (c c2 : H2Conn)
    (h : h2_route_event e c = .ok c2) :
    c2.events.map Prod.fst = c.events.map Prod.fst := by
  unfold h2_route_event at h
  by_cases hz : e.stream_id ≠ 0
  · rw [if_pos hz] at h
    rcases hr : mapAppend e.stream_id e c.events with err | m2
    · rw [hr] at h; cases h
    · rw [hr] at h
      injection h with h2
      subst h2
      exact mapAppend_ok_keys _ _ _ _ hr
  · rw [if_neg hz] at h
    injection h with h2
    subst h2
    rfl

theorem h2_route_event_ok_good (e : H2Event) (c c2 : H2Conn) (hg : goodMap c.events)
    (h : h2_route_event e c = .ok c2) : goodMap c2.events := by
  unfold h2_route_event at h
  by_cases hz : e.stream_id ≠ 0
  · rw [if_pos hz] at h
    rcases hr : mapAppend e.stream_id e c.events with err | m2
    · rw [hr] at h; cases h
    · rw [hr] at h
      injection h with h2
      subst h2
      exact mapAppend_ok_goodMap _ _ _ _ hg rfl hr
  · rw [if_neg hz] at h
    injection h with h2
    subst h2
    exact hg

theorem h2_receive_batch_ok_keys (evs : List H2Event) (c c2 : H2Conn)
    (h : h2_receive_batch evs c = .ok c2) :
    c2.events.map Prod.fst = c.events.map Prod.fst := by
  induction evs generalizing c with
  | nil =>
    unfold h2_receive_batch at h
    injection h with h2
    subst h2
    rfl
  | cons e rest ih =>
    unfold h2_receive_batch at h
    rcases hr : h2_route_event e c with err | c3
    · rw [hr] at h; cases h
    · rw [hr] at h
      rw [ih c3 h, h2_route_event_ok_keys e c c3 hr]

theorem h2_receive_batch_ok_good (evs : List H2Event) (c c2 : H2Conn) (hg : goodMap c.events)
    (h : h2_receive_batch evs c = .ok c2) : goodMap c2.events := by
  induction evs generalizing c with
  | nil =>
    unfold h2_receive_batch at h
    injection h with h2
    subst h2
    exact hg
  | cons e rest ih =>
    unfold h2_receive_batch at h
    rcases hr : h2_route_event e c with err | c3
    · rw [hr] at h; cases h
    · rw [hr] at h
      exact ih c3 (h2_route_event_ok_good e c c3 hg hr) h

theorem mapPop_ok_keys (sid : Nat) (m : H2EventMap) (x : H2Event) (m2 : H2EventMap)
    (h : mapPop sid m = .ok (x, m2)) : m2.map Prod.fst = m.map Prod.fst := by
  unfold mapPop at h
  split at h
  · cases h
  · cases h
  · rename_i e q hl
    split at h
    · rename_i m3 hr
      injection h with h2
      injection h2 with hx hm
      subst hm
      exact mapReplace_ok_keys _ _ _ _ hr
    · cases h

theorem mapPop_ok_good (sid : Nat) (m : H2EventMap) (x : H2Event) (m2 : H2EventMap)
    (hg : goodMap m) (h : mapPop sid m = .ok (x, m2)) : goodMap m2 := by
  unfold mapPop at h
  split at h
  · cases h
  · cases h
  · rename_i e q hl
    split at h
    · rename_i m3 hr
      injection h with h2
      injection h2 with hx hm
      subst hm
      have hq : ∀ e2 ∈ q, e2.stream_id = sid := fun e2 he2 =>
        lookup_goodMap m hg sid (e :: q) hl e2 (by simp [he2])
      exact mapReplace_ok_goodMap _ _ _ _ hg hq hr
    · cases h

theorem h2_pop_event_ok_keys (sid : Nat) (c : H2Conn) (x : H2Event) (c2 : H2Conn)
    (h : h2_pop_event sid c = .ok (x, c2)) :
    c2.events.map Prod.fst = c.events.map Prod.fst := by
  unfold h2_pop_event at h
  split at h
  · cases h
  · rename_i e m hp
    injection h with h2
    injection h2 with hx hc
    subst hc
    exact mapPop_ok_keys sid c.events e m hp

theorem h2_pop_event_ok_good (sid : Nat) (c : H2Conn) (x : H2Event) (c2 : H2Conn)
    (hg : goodMap c.events) (h : h2_pop_event sid c = .ok (x, c2)) :
    goodMap c2.events := by
  unfold h2_pop_event at h
  split at h
  · cases h
  · rename_i e m hp
    injection h with h2
    injection h2 with hx hc
    subst hc
    exact mapPop_ok_good sid c.events e m hg hp

theorem h2_response_closed_ok_sublist (sid : Nat) (c c2 : H2Conn)
    (h : h2_response_closed sid c = .ok c2) : List.Sublist c2.events c.events := by
  unfold h2_response_closed at h
  split at h
  · cases h
  · rename_i m2 hr
    split at h <;> (injection h with h2; subst h2; exact mapDelete_ok_sublist sid c.events m2 hr)

theorem h2_response_closed_spec (sid : Nat) (c c2 : H2Conn) (hnd : nodupKeys c.events)
    (h : h2_response_closed sid c = .ok c2) :
    c2.events.lookup sid = none ∧
    (∀ k, k ≠ sid → c2.events.lookup k = c.events.lookup k) ∧
    (c2.releaseCount = c.releaseCount + 1 ↔ (c2.events.isEmpty ∧ c.hasOnRelease = true)) ∧
    (¬ (c2.events.isEmpty ∧ c.hasOnRelease = true) → c2.releaseCount = c.releaseCount) := by
  unfold h2_response_closed at h
  split at h
  · cases h
  · rename_i m2 hr
    split at h
    · rename_i hcond
      injection h with h2
      subst h2
      refine ⟨mapDelete_ok_lookup_self sid c.events m2 hnd hr,
        fun k hk => mapDelete_ok_lookup_ne sid k c.events m2 hk hr, ?_, ?_⟩
      · exact ⟨fun _ => hcond, fun _ => rfl⟩
      · intro hx
        exact absurd hcond hx
    · rename_i hcond
      injection h with h2
      subst h2
      refine ⟨mapDelete_ok_lookup_self sid c.events m2 hnd hr,
        fun k hk => mapDelete_ok_lookup_ne sid k c.events m2 hk hr, ?_, fun _ => rfl⟩
      constructor
      · intro hx
        have hx2 : c.releaseCount = c.releaseCount + 1 := hx
        omega
      · intro hx
        exact absurd hx hcond

/-- The joint invariant the run preserves: queued events match their key,
and keys are pairwise distinct. -/
def h2Inv (c : H2Conn) : Prop :=
  goodMap c.events ∧ nodupKeys c.events

theorem h2_step_ok_inv (op : H2Op) (c c2 : H2Conn) (h : h2Inv c) (hs : h2_step op c = .ok c2) :
    h2Inv c2 := by
  obtain ⟨hg, hnd⟩ := h
  cases op with
  | openStream sid =>
    simp only [h2_step] at hs
    injection hs with h2
    subst h2
    exact ⟨goodMap_mapSetEmpty sid c.events hg, nodup_mapSetEmpty sid c.events hnd⟩
  | receiveBatch evs =>
    simp only [h2_step] at hs
    refine ⟨h2_receive_batch_ok_good evs c c2 hg hs, ?_⟩
    unfold nodupKeys
    rw [h2_receive_batch_ok_keys evs c c2 hs]
    exact hnd
  | popEvent sid =>
    simp only [h2_step] at hs
    split at hs
    · cases hs
    · rename_i x c3 hp
      injection hs with h2
      subst h2
      refine ⟨h2_pop_event_ok_good sid c x c3 hg hp, ?_⟩
      unfold nodupKeys
      rw [h2_pop_event_ok_keys sid c x c3 hp]
      exact hnd
  | closeResponse sid =>
    simp only [h2_step] at hs
    have hsub := h2_response_closed_ok_sublist sid c c2 hs
    exact ⟨goodMap_sublist c.events c2.events hsub hg, nodup_sublist c.events c2.events hsub hnd⟩

theorem h2_run_ok_inv (ops : List H2Op) (c c2 : H2Conn) (h : h2Inv c)
    (hr : h2_run ops c = .ok c2) : h2Inv c2 := by
  induction ops generalizing c with
  | nil =>
    unfold h2_run at hr
    injection hr with h2
    subst h2
    exact h
  | cons op rest ih =>
    unfold h2_run at hr
    split at hr
    · cases hr
    · rename_i c3 hs
      exact ih c3 (h2_step_ok_inv op c c3 h hs) hr

theorem b64Char_not_space (n : Nat) : isPySpace (b64Char n) = false := by
  have h : ∀ i < 64, isPySpace (base64Alphabet.getD i 'A') = false := by decide
  exact h (n % 64) (Nat.mod_lt n (by norm_num))

theorem b64encodeChars_not_space :
    ∀ (bs : List Nat), ∀ c ∈ b64encodeChars bs, isPySpace c = false
  | [] => by
    intro c hc
    simp [b64encodeChars] at hc
  | [a] => by
    intro c hc
    simp only [b64encodeChars, List.mem_cons, List.not_mem_nil, or_false] at hc
    rcases hc with h | h | h | h <;> subst h <;>
      first | exact b64Char_not_space _ | decide
  | [a, b] => by
    intro c hc
    simp only [b64encodeChars, List.mem_cons, List.not_mem_nil, or_false] at hc
    rcases hc with h | h | h | h <;> subst h <;>
      first | exact b64Char_not_space _ | decide
  | a :: b :: d :: rest => by
    intro c hc
    simp only [b64encodeChars, List.mem_cons] at hc
    rcases hc with h | h | h | h | h
    · subst h; exact b64Char_not_space _
    · subst h; exact b64Char_not_space _
    · subst h; exact b64Char_not_space _
    · subst h; exact b64Char_not_space _
    · exact b64encodeChars_not_space rest c h

theorem b64encodeChars_ne_nil (bs : List Nat) (h : bs ≠ []) : b64encodeChars bs ≠ [] := by
  match bs with
  | [] => exact absurd rfl h
  | [a] => simp [b64encodeChars]
  | [a, b] => simp [b64encodeChars]
  | a :: b :: d :: rest => simp [b64encodeChars]

theorem dropWhile_isPySpace_eq_self (l : List Char) (h : ∀ c ∈ l, isPySpace c = false) :
    l.dropWhile isPySpace = l := by
  cases l with
  | nil => rfl
  | cons a t =>
    rw [List.dropWhile_cons, h a (by simp)]
    simp

theorem pyStrip_no_space (s : String) (h : ∀ c ∈ s.toList, isPySpace c = false) :
    pyStrip s = s := by
  unfold pyStrip
  rw [dropWhile_isPySpace_eq_self _ h]
  rw [dropWhile_isPySpace_eq_self _ (by intro c hc; exact h c (List.mem_reverse.mp hc))]
  simp

theorem pyStrip_b64encode (bs : List Nat) : pyStrip (b64encode bs) = b64encode bs := by
  apply pyStrip_no_space
  intro c hc
  exact b64encodeChars_not_space bs c (by simpa [b64encode] using hc)

theorem headerNameEq_refl (a : String) : headerNameEq a a = true := by
  simp [headerNameEq]

theorem setHeader_idem (hs : List (String × String)) (n v : String) :
    setHeader (setHeader hs n v) n v = setHeader hs n v := by
  unfold setHeader
  rw [List.filter_append, List.filter_filter]
  simp [headerNameEq_refl]

theorem parse_loop_no_status (hdrs : List (List Nat × List Nat)) (st : Int)
    (acc : List (List Nat × List Nat)) (h : ∀ p ∈ hdrs, p.1 ≠ statusHeaderName) :
    parse_h2_response_loop hdrs st acc =
      .ok (st, acc ++ hdrs.filter (fun p => ! startsWithColon p.1)) := by
  induction hdrs generalizing acc with
  | nil => simp [parse_h2_response_loop]
  | cons hd tl ih =>
    obtain ⟨k, v⟩ := hd
    have hk : k ≠ statusHeaderName := h (k, v) (by simp)
    have htl : ∀ p ∈ tl, p.1 ≠ statusHeaderName := fun p hp => h p (by simp [hp])
    unfold parse_h2_response_loop
    rw [if_neg hk]
    by_cases hc : startsWithColon k = true
    · rw [if_pos hc, ih _ htl]
      simp [List.filter_cons, hc]
    · rw [if_neg hc, ih _ htl]
      simp only [Bool.not_eq_true] at hc
      simp [List.filter_cons, hc]

theorem parse_loop_headers_filtered (hdrs : List (List Nat × List Nat)) (st s2 : Int)
    (acc hs : List (List Nat × List Nat))
    (h : parse_h2_response_loop hdrs st acc = .ok (s2, hs)) :
    hs = acc ++ hdrs.filter (fun p => ! startsWithColon p.1) := by
  induction hdrs generalizing st acc with
  | nil =>
    unfold parse_h2_response_loop at h
    injection h with h2
    injection h2 with h3 h4
    simp [← h4]
  | cons hd tl ih =>
    obtain ⟨k, v⟩ := hd
    unfold parse_h2_response_loop at h
    by_cases hk : k = statusHeaderName
    · rw [if_pos hk] at h
      rcases hi : pyInt (asciiIgnoreDecode v) with e | n
      · rw [hi] at h
        cases h
      · rw [hi] at h
        have := ih _ _ h
        have hcolon : startsWithColon k = true := by subst hk; rfl
        simp [List.filter_cons, hcolon, this]
    · rw [if_neg hk] at h
      by_cases hc : startsWithColon k = true
      · rw [if_pos hc] at h
        have := ih _ _ h
        simp [List.filter_cons, hc, this]
      · rw [if_neg hc] at h
        have := ih _ _ h
        simp only [Bool.not_eq_true] at hc
        simp [List.filter_cons, hc, this]

theorem parse_loop_append_no_status (pre rest : List (List Nat × List Nat)) (st : Int)
    (acc : List (List Nat × List Nat)) (h : ∀ p ∈ pre, p.1 ≠ statusHeaderName) :
    parse_h2_response_loop (pre ++ rest) st acc =
      parse_h2_response_loop rest st (acc ++ pre.filter (fun p => ! startsWithColon p.1)) := by
  induction pre generalizing acc with
  | nil => simp
  | cons hd tl ih =>
    obtain ⟨k, v⟩ := hd
    have hk : k ≠ statusHeaderName := h (k, v) (by simp)
    have htl : ∀ p ∈ tl, p.1 ≠ statusHeaderName := fun p hp => h p (by simp [hp])
    rw [List.cons_append]
    simp only [parse_h2_response_loop]
    rw [if_neg hk]
    by_cases hc : startsWithColon k = true
    · rw [if_pos hc, ih _ htl]
      simp [List.filter_cons, hc]
    · rw [if_neg hc, ih _ htl]
      simp only [Bool.not_eq_true] at hc
      simp [List.filter_cons, hc]

/-! ## Claim theorems -/

/-- Claim C1 (code-bug evidence): `send_data` against a zero per-stream
flow-control window does not wait for a WINDOW_UPDATE event — the computed
`chunk_size` is zero and `range(0, len(data), 0)` raises `ValueError`
before any frame is sent or any wait is reached. -/
theorem c1_send_data_zero_window_raises :
    send_data [42] 0 = .error "ValueError: range() arg 3 must not be zero" := by
  rfl

/-- Claim C10: whenever the streamed body chunk is empty or the per-stream
flow-control window is zero when the chunk is processed, `send_data`
computes a chunk size of zero and raises the zero-step `range` exception
instead of sending a frame or suspending. -/
theorem c10_send_data_zero_chunk_raises (data : List Nat) (flow : Nat)
    (h : data.length = 0 ∨ flow = 0) :
    send_data data flow = .error "ValueError: range() arg 3 must not be zero" := by
  have hmin : min data.length flow = 0 := by
    rcases h with h | h <;> simp [h]
  unfold send_data pyRange
  simp [hmin]

theorem c10_witness :
    (([] : List Nat).length = 0 ∨ (5 : Nat) = 0) ∧
    send_data [] 5 = .error "ValueError: range() arg 3 must not be zero" :=
  ⟨Or.inl rfl, c10_send_data_zero_chunk_raises [] 5 (Or.inl rfl)⟩

/-- Claim C2: when the first inbound event of an HTTP/1.1 exchange is an
informational (1xx) response, exactly one more event is read: if it is the
final `Response` its status and headers are returned with the remaining
events untouched, and if it is a second informational response the
`assert isinstance(event, h11.Response)` fails, an error of the exchange. -/
theorem c2_informational_handling (st : Nat) (hh : List (String × String))
    (e2 : H11Event) (rest : List H11Event) :
    (∀ s hd, e2 = .response s hd →
      read_response (.informationalResponse st hh :: e2 :: rest) = .ok (s, hd, rest)) ∧
    (∀ st2 hh2, e2 = .informationalResponse st2 hh2 →
      read_response (.informationalResponse st hh :: e2 :: rest) =
        .error "AssertionError: isinstance(event, h11.Response)") := by
  constructor
  · intro s hd h
    subst h
    rfl
  · intro st2 hh2 h
    subst h
    rfl

theorem c2_witness :
    read_response [.informationalResponse 100 [], .response 204 []] = .ok (204, [], []) ∧
    read_response [.informationalResponse 100 [], .informationalResponse 103 []] =
      .error "AssertionError: isinstance(event, h11.Response)" :=
  ⟨(c2_informational_handling 100 [] (.response 204 []) []).1 204 [] rfl,
   (c2_informational_handling 100 [] (.informationalResponse 103 []) []).2 103 [] rfl⟩

/-- Claim C3: `response_closed` first decides reuse — when both codec sides
are DONE the connection starts the next cycle (transport untouched, both
sides reset to IDLE), otherwise the transport is closed — and then invokes
the registered release callback exactly once, so `n` closed responses yield
exactly `n` release invocations. -/
theorem c3_release_exactly_once (c : H11Conn) (h : c.hasOnRelease = true) (n : Nat) :
    (response_closed c).releaseCount = c.releaseCount + 1 ∧
    (c.ourState = .DONE ∧ c.theirState = .DONE →
      (response_closed c).transportClosed = c.transportClosed ∧
      (response_closed c).ourState = .IDLE ∧ (response_closed c).theirState = .IDLE) ∧
    (¬ (c.ourState = .DONE ∧ c.theirState = .DONE) →
      (response_closed c).transportClosed = true ∧ (response_closed c).ourState = .CLOSED) ∧
    (response_closed^[n] c).releaseCount = c.releaseCount + n := by
  refine ⟨response_closed_releaseCount c h, ?_, ?_, response_closed_iterate n c h⟩
  · intro hd
    unfold response_closed
    rw [if_pos hd]
    simp [h]
  · intro hd
    unfold response_closed h11close
    rw [if_neg hd]
    simp [h]

theorem c3_witness :
    (response_closed ⟨.DONE, .DONE, false, true, 0⟩).releaseCount = 0 + 1 :=
  (c3_release_exactly_once ⟨.DONE, .DONE, false, true, 0⟩ rfl 0).1

theorem mergedConfig_eq_self_iff (s : SSLConfig) (cert : Option CertT) (verify : Option VerifyT) :
    mergedConfig s cert verify = s ↔
      ((match cert with | none => s.cert | some c => some c) = s.cert ∧
       (match verify with | none => s.verify | some v => v) = s.verify) := by
  cases s
  unfold mergedConfig
  simp

/-- Claim C6: `with_overrides` returns the very same instance exactly when
both merged field values structurally equal the current ones; otherwise it
returns a fresh config carrying the merged values, where a specified
argument replaces its field and an unspecified (`None`) argument leaves the
field unchanged. -/
theorem c6_with_overrides (s : SSLConfig) (cert : Option CertT) (verify : Option VerifyT) :
    (with_overrides s cert verify = .sameInstance ↔ mergedConfig s cert verify = s) ∧
    (mergedConfig s cert verify ≠ s →
      with_overrides s cert verify = .freshConfig (mergedConfig s cert verify)) ∧
    (∀ c0, cert = some c0 → (mergedConfig s cert verify).cert = some c0) ∧
    (cert = none → (mergedConfig s cert verify).cert = s.cert) ∧
    (∀ v0, verify = some v0 → (mergedConfig s cert verify).verify = v0) ∧
    (verify = none → (mergedConfig s cert verify).verify = s.verify) := by
  refine ⟨?_, ?_, ?_, ?_, ?_, ?_⟩
  · constructor
    · intro hres
      by_cases hcond : mergedConfig s cert verify = s
      · exact hcond
      · exfalso
        have hnc := fun hc => hcond ((mergedConfig_eq_self_iff s cert verify).mpr hc)
        simp only [with_overrides] at hres
        rw [if_neg hnc] at hres
        simp at hres
    · intro hm
      simp only [with_overrides]
      rw [if_pos ((mergedConfig_eq_self_iff s cert verify).mp hm)]
  · intro hm
    simp only [with_overrides]
    rw [if_neg (fun hcond => hm ((mergedConfig_eq_self_iff s cert verify).mpr hcond))]
    rfl
  · intro c0 hc
    subst hc
    rfl
  · intro hc
    subst hc
    rfl
  · intro v0 hv
    subst hv
    rfl
  · intro hv
    subst hv
    rfl

theorem c6_witness :
    with_overrides ⟨none, .boolean true⟩ (some (.pem "client.pem")) none =
      .freshConfig ⟨some (.pem "client.pem"), .boolean true⟩ :=
  (c6_with_overrides ⟨none, .boolean true⟩ (some (.pem "client.pem")) none).2.1 (by decide)

/-- Claim C7 counterexample: a `verify` path that exists on the filesystem
but as neither a regular file nor a directory (a FIFO, socket or device
node) makes `load_ssl_context_verify` succeed — with no CA location loaded
at all — where the claim demands an I/O error. -/
theorem c7_counterexample :
    isfile (fun _ => PathKind.otherNode) "ca-fifo" = false ∧
    isdir (fun _ => PathKind.otherNode) "ca-fifo" = false ∧
    load_ssl_context_verify (fun _ => PathKind.otherNode) ⟨none, .path "ca-fifo"⟩ =
      .ok ⟨none, none⟩ :=
  ⟨rfl, rfl, rfl⟩

/-- Claim C7 (amended): when `verify` is a path, the I/O error is raised
exactly when the path does not exist at all; an existing regular file is
loaded as the CA file, an existing directory as the CA path, and a path
that exists as neither kind yields a context with no CA location loaded. -/
theorem c7_verify_path_ca_loading (fs : String → PathKind) (cfg : SSLConfig) (p : String)
    (h : cfg.verify = .path p) :
    (fs p = .missing →
      load_ssl_context_verify fs cfg =
        .error ("IOError: could not find a suitable TLS CA certificate bundle, invalid path: " ++ p)) ∧
    (fs p = .regularFile →
      load_ssl_context_verify fs cfg = .ok ⟨some (.caFile p), cfg.cert⟩) ∧
    (fs p = .directory →
      load_ssl_context_verify fs cfg = .ok ⟨some (.caPath p), cfg.cert⟩) ∧
    (fs p = .otherNode →
      load_ssl_context_verify fs cfg = .ok ⟨none, cfg.cert⟩) := by
  unfold load_ssl_context_verify pathExists isfile isdir
  rw [h]
  refine ⟨?_, ?_, ?_, ?_⟩ <;> intro hk <;> simp [hk]

theorem c7_witness :
    load_ssl_context_verify (fun _ => PathKind.regularFile) ⟨none, .path "ca.pem"⟩ =
      .ok ⟨some (.caFile "ca.pem"), none⟩ :=
  (c7_verify_path_ca_loading (fun _ => PathKind.regularFile) ⟨none, .path "ca.pem"⟩
    "ca.pem" rfl).2.1 rfl

/-- Claim C8: when no caller header has the name Host (case-insensitively),
a single `host` header derived from the URL authority is prepended before
the caller's headers; when the caller supplied a Host header, the list
reaches the codec unchanged, caller order preserved. -/
theorem c8_host_header (authority : String) (raw : List (String × String)) :
    ((∀ pair ∈ raw, headerNameEq pair.1 "Host" = false) →
      h11_request_headers authority raw = ("host", authority) :: raw) ∧
    ((∃ pair ∈ raw, headerNameEq pair.1 "Host" = true) →
      h11_request_headers authority raw = raw) := by
  constructor
  · intro hnone
    unfold h11_request_headers containsHost
    rw [List.any_eq_false.mpr (by intro x hx; simp [hnone x hx])]
    simp
  · rintro ⟨pair, hmem, hp⟩
    unfold h11_request_headers containsHost
    rw [List.any_eq_true.mpr ⟨pair, hmem, hp⟩]
    simp

/-- Claim C4: over every reachable state of an HTTP/2 connection, each
event-map queue holds only events carrying its own stream id; routing and
popping events never create or remove keys (keys change only when a stream
is opened or its response closed); closing a response removes exactly its
stream's entry, leaving every other key's queue untouched; and the release
callback is invoked — the count rises by one — precisely when the map
became empty and a callback is registered. -/
theorem c4_event_map_invariant :
    (∀ (b : Bool) (ops : List H2Op) (c : H2Conn),
      h2_run ops (h2init b) = .ok c → goodMap c.events) ∧
    (∀ (e : H2Event) (c c2 : H2Conn), h2_route_event e c = .ok c2 →
      c2.events.map Prod.fst = c.events.map Prod.fst) ∧
    (∀ (sid : Nat) (x : H2Event) (c c2 : H2Conn), h2_pop_event sid c = .ok (x, c2) →
      c2.events.map Prod.fst = c.events.map Prod.fst) ∧
    (∀ (sid : Nat) (c c2 : H2Conn), nodupKeys c.events → h2_response_closed sid c = .ok c2 →
      c2.events.lookup sid = none ∧
      (∀ k, k ≠ sid → c2.events.lookup k = c.events.lookup k) ∧
      (c2.releaseCount = c.releaseCount + 1 ↔ (c2.events.isEmpty ∧ c.hasOnRelease = true)) ∧
      (¬ (c2.events.isEmpty ∧ c.hasOnRelease = true) →
        c2.releaseCount = c.releaseCount)) := by
  refine ⟨?_, ?_, ?_, ?_⟩
  · intro b ops c hrun
    exact (h2_run_ok_inv ops (h2init b) c ⟨by intro p hp; simp [h2init] at hp, by simp [h2init, nodupKeys]⟩ hrun).1
  · intro e c c2 h
    exact h2_route_event_ok_keys e c c2 h
  · intro sid x c c2 h
    exact h2_pop_event_ok_keys sid c x c2 h
  · intro sid c c2 hnd h
    exact h2_response_closed_spec sid c c2 hnd h

theorem c4_witness :
    goodMap ([(1, [⟨H2EventKind.responseReceived, 1⟩]), (3, [])] : H2EventMap) ∧
    List.lookup 5 ([] : H2EventMap) = none :=
  ⟨c4_event_map_invariant.1 true
      [H2Op.openStream 1, H2Op.openStream 3,
       H2Op.receiveBatch [⟨H2EventKind.responseReceived, 1⟩]]
      ⟨[(1, [⟨H2EventKind.responseReceived, 1⟩]), (3, [])], true, 0⟩ rfl,
   (c4_event_map_invariant.2.2.2 5 ⟨[(5, [])], true, 0⟩ ⟨[], true, 1⟩
     (by unfold nodupKeys; decide) rfl).1⟩

/-- Claim C5: for every username and password (text or bytes) whose Latin-1
coercion to bytes succeeds, the built Authorization header is exactly
`Basic ` followed by the Base64 encoding of `user ++ ":" ++ pass` with no
trailing whitespace; the Aladdin / open sesame pair yields the RFC 7617
example token, and applying the mutator twice leaves the header list as
after one application. -/
theorem c5_basic_auth (username password : StrOrBytes) (u p : List Nat)
    (hu : toBytes username = .ok u) (hp : toBytes password = .ok p) :
    build_auth_header username password = .ok ("Basic " ++ b64encode (u ++ [58] ++ p)) ∧
    (∀ c, ("Basic " ++ b64encode (u ++ [58] ++ p)).toList.getLast? = some c →
      isPySpace c = false) ∧
    build_auth_header (.str "Aladdin") (.str "open sesame") =
      .ok "Basic QWxhZGRpbjpvcGVuIHNlc2FtZQ==" ∧
    (∀ hs hs2, applyBasicAuth username password hs = .ok hs2 →
      applyBasicAuth username password hs2 = .ok hs2) := by
  have hbuild : build_auth_header username password =
      .ok ("Basic " ++ b64encode (u ++ [58] ++ p)) := by
    unfold build_auth_header
    simp only [hu, hp]
    rw [pyStrip_b64encode]
  refine ⟨hbuild, ?_, by rfl, ?_⟩
  · intro c hc
    have hne : b64encodeChars (u ++ [58] ++ p) ≠ [] :=
      b64encodeChars_ne_nil _ (by simp)
    have hc2 : ("Basic ".toList ++ b64encodeChars (u ++ [58] ++ p)).getLast? = some c := hc
    rw [List.getLast?_append_of_ne_nil _ hne] at hc2
    obtain ⟨hnil, hcej⟩ := List.mem_getLast?_eq_getLast hc2
    exact b64encodeChars_not_space _ c (hcej ▸ List.getLast_mem hnil)
  · intro hs hs2 happ
    unfold applyBasicAuth at happ ⊢
    simp only [hbuild] at happ ⊢
    injection happ with h2
    subst h2
    rw [setHeader_idem]

theorem c5_witness :
    toBytes (.str "Aladdin") = .ok [65, 108, 97, 100, 100, 105, 110] ∧
    build_auth_header (.str "Aladdin") (.str "open sesame") =
      .ok "Basic QWxhZGRpbjpvcGVuIHNlc2FtZQ==" :=
  ⟨rfl, (c5_basic_auth (.str "Aladdin") (.str "open sesame")
      [65, 108, 97, 100, 100, 105, 110]
      [111, 112, 101, 110, 32, 115, 101, 115, 97, 109, 101] rfl rfl).2.2.1⟩

/-- Claim C9: a HEADERS block without a `:status` pseudo-header parses to
the default status code 200 without failing; a present `:status` value is
decoded as ASCII with undecodable bytes ignored and then parsed as an
integer; every pseudo-header (name starting with a colon) is dropped from
the returned header list, and the remaining headers keep their order. -/
theorem c9_h2_response_parse :
    (∀ hdrs, (∀ p ∈ hdrs, p.1 ≠ statusHeaderName) →
      parse_h2_response hdrs = .ok (200, hdrs.filter (fun p => ! startsWithColon p.1))) ∧
    (∀ hdrs st hs, parse_h2_response hdrs = .ok (st, hs) →
      hs = hdrs.filter (fun p => ! startsWithColon p.1)) ∧
    (∀ pre post v n,
      (∀ p ∈ pre, p.1 ≠ statusHeaderName) → (∀ p ∈ post, p.1 ≠ statusHeaderName) →
      pyInt (asciiIgnoreDecode v) = .ok n →
      parse_h2_response (pre ++ (statusHeaderName, v) :: post) =
        .ok (n, (pre ++ (statusHeaderName, v) :: post).filter
          (fun p => ! startsWithColon p.1))) := by
  refine ⟨?_, ?_, ?_⟩
  · intro hdrs h
    unfold parse_h2_response
    rw [parse_loop_no_status hdrs 200 [] h]
    simp
  · intro hdrs st hs h
    have := parse_loop_headers_filtered hdrs 200 st [] hs h
    simpa using this
  · intro pre post v n hpre hpost hv
    unfold parse_h2_response
    rw [parse_loop_append_no_status pre _ 200 [] hpre]
    simp only [parse_h2_response_loop, if_true]
    simp only [hv]
    rw [parse_loop_no_status post n _ hpost]
    have hcolon : startsWithColon statusHeaderName = true := rfl
    simp [List.filter_append, List.filter_cons, hcolon]

theorem c9_witness :
    parse_h2_response [([97], [98])] = .ok (200, [([97], [98])]) ∧
    parse_h2_response [([58, 112], [47]), (statusHeaderName, [50, 48, 52]), ([97], [98])] =
      .ok (204, [([97], [98])]) :=
  ⟨(c9_h2_response_parse.1 [([97], [98])] (by decide)),
   (c9_h2_response_parse.2.2 [([58, 112], [47])] [([97], [98])] [50, 48, 52] 204
     (by decide) (by decide) rfl)⟩

theorem c8_witness :
    h11_request_headers "example.com" [("Accept", "x")] =
      [("host", "example.com"), ("Accept", "x")] ∧
    h11_request_headers "example.com" [("hOsT", "example.com")] = [("hOsT", "example.com")] :=
  ⟨(c8_host_header "example.com" [("Accept", "x")]).1 (by decide),
   (c8_host_header "example.com" [("hOsT", "example.com")]).2
     ⟨("hOsT", "example.com"), by simp, by decide⟩⟩

end Http3
